import Mathlib

/-!
Verification development for the ydl media-archiving engine
(`ydl/__init__.py`, `ydl/__main__.py`, `ydl/fuse.py`, `ydl/util.py`).

Python strings are embedded as `List Char` (`PyStr`); machine integers and
instants as `Int` (seconds); SQL NULL as `Option.none`.  Each definition below
cites the source location it embeds.  Database tables are lists of row
structures; a transaction is a pure function from catalog state to catalog
state (the process is single-threaded, so this is faithful).
-/

namespace Ydl

/-- Python `str` values, embedded as lists of characters. -/
abbrev PyStr := List Char

/-! ## Python string primitives used by the source -/

/-- Python `needle in hay` for strings: `True` iff `needle` occurs as a
contiguous substring of `hay` (the empty needle always occurs). -/
def strHas (needle : PyStr) : PyStr → Bool
  | [] => needle.isEmpty
  | c :: rest => needle.isPrefixOf (c :: rest) || strHas needle rest

/-- Worker for Python `hay.split(sep)` with a non-empty separator
`s0 :: stl`: scan left to right, cutting at each occurrence of the
separator; `acc` holds the current field reversed. -/
def pySplitGo (s0 : Char) (stl : PyStr) : PyStr → PyStr → List PyStr
  | [], acc => [acc.reverse]
  | c :: rest, acc =>
    if (s0 :: stl).isPrefixOf (c :: rest) then
      acc.reverse :: pySplitGo s0 stl (List.drop stl.length rest) []
    else
      pySplitGo s0 stl rest (c :: acc)
termination_by l _ => l.length
decreasing_by
  all_goals simp_wf
  all_goals omega

/-- Python `hay.split(sep)` for a non-empty separator (Python raises
`ValueError` on an empty separator; that case never occurs in the source,
and is mapped to the whole string here). -/
def pySplit (sep : PyStr) (l : PyStr) : List PyStr :=
  match sep with
  | [] => [l]
  | s0 :: stl => pySplitGo s0 stl l []

/-- Python `hay.split(c)` for a single-character separator, written
structurally so that concrete evaluations reduce in the kernel. -/
def splitChar (sp : Char) : PyStr → List PyStr
  | [] => [[]]
  | c :: rest =>
    let r := splitChar sp rest
    if c == sp then [] :: r
    else
      match r with
      | h :: t => (c :: h) :: t
      | [] => [[c]]

/-- Python `hay.split(c, 1)` (maxsplit one): `none` when the separator is
absent, otherwise the parts before and after its first occurrence. -/
def splitOnceChar (sp : Char) : PyStr → Option (PyStr × PyStr)
  | [] => none
  | c :: rest =>
    if c == sp then some ([], rest)
    else (splitOnceChar sp rest).map (fun p => (c :: p.1, p.2))

/-- Root part of Python `os.path.splitext(name)` for a plain file name
(no directory separators): everything before the last dot, unless the
only dots are leading ones (so `.bashrc` keeps its name). -/
def splitextRoot (l : PyStr) : PyStr :=
  let rev := l.reverse
  let rest := rev.dropWhile (fun c => !(c == '.'))
  match rest with
  | [] => l
  | _ :: before =>
    -- `before` is everything left of the last dot (reversed); Python only
    -- treats the tail as an extension if a non-dot char precedes the dot
    if before.all (fun c => c == '.') then l
    else before.reverse

/-- ASCII whitespace stripped by Python `str.strip()` / skipped by `int()`
(space, tab, newline, carriage return, vertical tab, form feed). -/
def isWsChar (c : Char) : Bool :=
  c.toNat == 32 || c.toNat == 9 || c.toNat == 10 || c.toNat == 13 ||
    c.toNat == 11 || c.toNat == 12

/-- Python `s.strip()`: remove leading and trailing whitespace. -/
def pyStrip (l : PyStr) : PyStr :=
  ((l.dropWhile isWsChar).reverse.dropWhile isWsChar).reverse

/-- Collapse every run of two or more spaces to a single space
(spec 4.B: "collapse runs of spaces to one"). -/
def collapseSpaces : PyStr → PyStr
  | [] => []
  | [c] => [c]
  | a :: b :: rest =>
    if a == ' ' && b == ' ' then collapseSpaces (b :: rest)
    else a :: collapseSpaces (b :: rest)

/-- No two adjacent spaces: the shape `collapseSpaces` guarantees. -/
def noTwoSpaces (l : PyStr) : Prop :=
  List.Chain' (fun a b => ¬(a = ' ' ∧ b = ' ')) l

/-- A decimal digit `0`-`9`. -/
def pyDigit (c : Char) : Bool := 48 ≤ c.toNat && c.toNat ≤ 57

/-- A lowercase ASCII letter `a`-`z` (the shape of a time-unit word). -/
def isLowerAlpha (c : Char) : Bool := 97 ≤ c.toNat && c.toNat ≤ 122

/-- Numeric value of a string of decimal digits. -/
def digitsVal (l : PyStr) : Int :=
  l.foldl (fun a c => a * 10 + ((c.toNat : Int) - 48)) 0

/-- Python `int(s)` restricted to the shapes that occur here: optional
surrounding whitespace, an optional sign, then one or more decimal digits;
`none` models the `ValueError` raised otherwise. -/
def pyInt (s : PyStr) : Option Int :=
  match pyStrip s with
  | [] => none
  | c :: rest =>
    if c == '-' then
      if rest ≠ [] && rest.all pyDigit then some (-(digitsVal rest)) else none
    else if c == '+' then
      if rest ≠ [] && rest.all pyDigit then some (digitsVal rest) else none
    else if (c :: rest).all pyDigit then some (digitsVal (c :: rest)) else none

/-! ## Name canonicalization (`title_to_name`)

`ydl/__main__.py` and `ydl/__init__.py` import `title_to_name` from
`ydl.util`, but the copy of `util.py` in this tree does not define it
(the snapshot is missing that part of the module).  The function is
therefore modelled from the spec, §4.B. -/

/-- Modelled from the spec: the "fixed set of Latin-1 accented letters"
that `title_to_name` transliterates to ASCII counterparts (the missing
`ydl.util.title_to_name` is the authority for the exact set; any fixed
non-ASCII set gives the same claim verdicts). -/
def translitTable : List (Char × Char) :=
  [('à', 'a'), ('á', 'a'), ('â', 'a'), ('ã', 'a'), ('ä', 'a'), ('å', 'a'),
   ('è', 'e'), ('é', 'e'), ('ê', 'e'), ('ë', 'e'),
   ('ì', 'i'), ('í', 'i'), ('î', 'i'), ('ï', 'i'),
   ('ò', 'o'), ('ó', 'o'), ('ô', 'o'), ('õ', 'o'), ('ö', 'o'),
   ('ù', 'u'), ('ú', 'u'), ('û', 'u'), ('ü', 'u'),
   ('ñ', 'n'), ('ç', 'c'),
   ('À', 'A'), ('É', 'E'), ('Ö', 'O'), ('Ü', 'U'), ('Ñ', 'N'), ('Ç', 'C')]

/-- Transliterate one character through the fixed accent table. -/
def translitChar (c : Char) : Char :=
  match translitTable.find? (fun p => p.1 == c) with
  | some p => p.2
  | none => c

/-- Keep only ASCII codepoints (spec 4.B: "drop any remaining non-ASCII
codepoints"). -/
def asciiOk (c : Char) : Bool := c.toNat < 128

/-- Rewrite `:`, `/` and `\` to `-` (spec 4.B). -/
def rewritePunct (c : Char) : Char :=
  if c == ':' || c == '/' || c == '\\' then '-' else c

/-- Delete `!`, `?` and `|` (spec 4.B): characters that survive. -/
def keepPunct (c : Char) : Bool := !(c == '!' || c == '?' || c == '|')

/-- The cleaning pipeline of `title_to_name` before the empty-result
fallback, in the spec's order: transliterate, drop non-ASCII, strip
leading dots, rewrite `: / \`, delete `! ? |`, collapse space runs,
trim surrounding whitespace. -/
def tnClean (t : PyStr) : PyStr :=
  pyStrip (collapseSpaces
    ((((((t.map translitChar).filter asciiOk).dropWhile (fun c => c == '.')).map
        rewritePunct).filter keepPunct)))

/-- Modelled from the spec: `title_to_name(t)` (§4.B); the source imports it
from `ydl.util` but the snapshot of `util.py` does not contain it.  On an
empty cleaning result the literal `NOTHING` is returned. -/
def titleToName (t : PyStr) : PyStr :=
  let u := tnClean t
  if u.isEmpty then "NOTHING".toList else u

/-! ## Catalog schema (`ydl/__init__.py`, class `db`)

SQL NULL is `none`; `datetime` instants are `Int` seconds.  Each table is a
list of rows in insertion order (sqlite default rowid order for these
tables).  A freshly inserted row receives rowid `max + 1`, sqlite's default
assignment. -/

/-- A row of table `v` (one item/video).  Columns not mentioned by an
`insert` are NULL. -/
structure VRow where
  rowid : Nat
  ytid : PyStr
  name : Option PyStr := none
  dname : Option PyStr := none
  duration : Option Int := none
  title : Option PyStr := none
  uploader : Option PyStr := none
  ptime : Option Int := none
  ctime : Option Int := none
  atime : Option Int := none
  utime : Option Int := none
  skip : Bool := false
  thumbnails : Option PyStr := none
  chapters : Option PyStr := none
  videoformat : Option PyStr := none
deriving Repr, DecidableEq

/-- A row of table `vids` (membership of an item in a source's listing). -/
structure VidsRow where
  rowid : Nat
  name : PyStr
  ytid : PyStr
  idx : Int
  atime : Option Int := none
deriving Repr, DecidableEq

/-- A row of table `vnames` (preferred file name for an item). -/
structure VNamesRow where
  ytid : PyStr
  name : PyStr
deriving Repr, DecidableEq

/-- A row of table `v_sleep` (time-bounded suppression of an item). -/
structure VSleepRow where
  rowid : Nat
  ytid : PyStr
  t : Int
deriving Repr, DecidableEq

/-- The catalog tables the verified operations touch. -/
structure Catalog where
  v : List VRow := []
  vids : List VidsRow := []
  vnames : List VNamesRow := []
  v_sleep : List VSleepRow := []
deriving Repr, DecidableEq

/-- sqlite's default rowid for an insert: one more than the largest rowid
in use. -/
def freshRowid (rs : List Nat) : Nat := (rs.foldl max 0) + 1

/-- A value bound into a SQL comparison: either a Python int or a Python
str.  sqlite compares an INTEGER-affinity rowid with a text operand by
first trying to coerce the text to a number; non-numeric text never
equals an integer rowid. -/
inductive SqlVal
  | intV (n : Int)
  | textV (s : PyStr)
deriving Repr, DecidableEq

/-- Whether a rowid matches a bound SQL value (sqlite INTEGER-affinity
comparison semantics). -/
def rowidMatches (rowid : Nat) : SqlVal → Bool
  | .intV n => (rowid : Int) == n
  | .textV s =>
    match pyInt s with
    | some n => (rowid : Int) == n
    | none => false

/-- `d.v.select_one(..., 'ytid=?', [ytid])`: first matching row or NULL. -/
def vFind (st : Catalog) (ytid : PyStr) : Option VRow :=
  st.v.find? (fun r => r.ytid == ytid)

/-- `d.vnames.select_one('name', 'ytid=?', [ytid])`, as used for the
preferred-name (alias) lookups. -/
def vnamesFind (st : Catalog) (ytid : PyStr) : Option PyStr :=
  (st.vnames.find? (fun r => r.ytid == ytid)).map (fun r => r.name)

/-- `d.v_sleep.select_one(['rowid','t'], 'ytid=?', [ytid])`. -/
def vSleepFind (st : Catalog) (ytid : PyStr) : Option VSleepRow :=
  st.v_sleep.find? (fun r => r.ytid == ytid)

/-- `d.v.update({'ytid': ytid}, ...)`: update every `v` row with the given
ytid, returning the new table and the update's rowcount. -/
def vUpdateByYtid (st : Catalog) (ytid : PyStr) (f : VRow → VRow) : Catalog × Nat :=
  ({ st with v := st.v.map (fun r => if r.ytid == ytid then f r else r) },
   (st.v.filter (fun r => r.ytid == ytid)).length)

/-- `d.v.update({'rowid': k}, ...)` where `k` is any bound value. -/
def vUpdateByRowid (st : Catalog) (k : SqlVal) (f : VRow → VRow) : Catalog :=
  { st with v := st.v.map (fun r => if rowidMatches r.rowid k then f r else r) }

/-- `d.vids.update({'rowid': k}, ...)` where `k` is any bound value (the
reconciliation passes both real rowids and, at one buggy site, the literal
string `'?'`). -/
def vidsUpdateByRowid (st : Catalog) (k : SqlVal) (f : VidsRow → VidsRow) : Catalog :=
  { st with vids := st.vids.map (fun r => if rowidMatches r.rowid k then f r else r) }

/-- Insert into `v` with sqlite's fresh rowid. -/
def vInsert (st : Catalog) (mk : Nat → VRow) : Catalog :=
  { st with v := st.v ++ [mk (freshRowid (st.v.map (fun r => r.rowid)))] }

/-- Insert into `vids` with sqlite's fresh rowid. -/
def vidsInsert (st : Catalog) (mk : Nat → VidsRow) : Catalog :=
  { st with vids := st.vids ++ [mk (freshRowid (st.vids.map (fun r => r.rowid)))] }

/-- Insert into `v_sleep` with sqlite's fresh rowid. -/
def vSleepInsert (st : Catalog) (ytid : PyStr) (t : Int) : Catalog :=
  { st with v_sleep :=
      st.v_sleep ++ [⟨freshRowid (st.v_sleep.map (fun r => r.rowid)), ytid, t⟩] }

/-! ## Registration of a stand-alone watch URL (`YDL.add`, kind `'v'`)

`ydl/__main__.py:727`: look the item up; when absent call
`db.add_video` (`ydl/__init__.py:657`), which runs
`self.v.insert(ytid=ytid, skip=0, dname="MISCELLANEOUS", ctime=_now())`. -/

/-- Handling of one `watch?v=` URL by `YDL.add`: create the item row if and
only if the iid is not yet in the catalog. -/
def addVideoUrl (st : Catalog) (ytid : PyStr) (now : Int) : Catalog :=
  match vFind st ytid with
  | some _ => st
  | none =>
    vInsert st (fun rid =>
      { rowid := rid, ytid := ytid, skip := false,
        dname := some ("MISCELLANEOUS".toList), ctime := some now })

/-! ## Marking an item skipped (`YDL.skip`, `ydl/__main__.py:1221`)

Within one `begin`/`commit`: select the item's rowid, set `skip=True` on
that rowid, and delete every `v_sleep` row for the iid.  A missing item
makes `row['rowid']` raise (`None` subscripted), aborting the uncommitted
transaction: modelled as `none`. -/

/-- Marking one item skipped, as an atomic catalog transform. -/
def skipVideo (st : Catalog) (ytid : PyStr) : Option Catalog :=
  match vFind st ytid with
  | none => none
  | some row =>
    let st1 := vUpdateByRowid st (.intV row.rowid) (fun r => { r with skip := true })
    some { st1 with v_sleep := st1.v_sleep.filter (fun s => !(s.ytid == ytid)) }

/-! ## Path formatting (`db.format_v_names`, `ydl/__init__.py:726`) -/

/-- `db.format_v_names(dname, name, alias, ytid, suffix)`: the pair of
directory (`cwd/dname/ytid[0]`) and file name.  `os.getcwd()` is passed in
as `cwd`; an empty `ytid` makes `ytid[0]` raise `IndexError`, modelled as
`none`. -/
def format_v_names (cwd dname : PyStr) (name aliasN : Option PyStr) (ytid : PyStr)
    (suffix : Option PyStr) : Option (PyStr × PyStr) :=
  let name := match name with
    | none => "TEMP".toList
    | some n => n
  let fname := match aliasN with
    | none => name
    | some a => a
  match ytid with
  | [] => none
  | y0 :: _ =>
    match suffix with
    | none =>
      some (cwd ++ ('/' :: dname) ++ ['/', y0], fname ++ ('-' :: ytid))
    | some sfx =>
      some (cwd ++ ('/' :: dname) ++ ['/', y0], fname ++ ('-' :: ytid) ++ ('.' :: sfx))

/-- `db.format_v_fname`: the two parts of `format_v_names` joined by `/`. -/
def format_v_fname (cwd dname : PyStr) (name aliasN : Option PyStr) (ytid : PyStr)
    (suffix : Option PyStr) : Option PyStr :=
  (format_v_names cwd dname name aliasN ytid suffix).map (fun p => p.1 ++ ('/' :: p.2))

/-! ## Full-list reconciliation (`__sync_list_full`, `ydl/__main__.py:3359`)

The transactional core (lines 3385-3463).  `key` is the effective source
key `c_name_alt or c_name`; `cur` is the enumerated listing (index and iid,
with optional title); `rssNew` is the feed's iid list when a feed preceded
the enumeration.  An exception inside the transaction rolls it back
(lines 3464-3466), leaving the catalog unchanged. -/

/-- One enumerated item of a listing, as produced by `get_list`. -/
structure EnumItem where
  idx : Int
  ytid : PyStr
  title : Option PyStr := none
deriving Repr, DecidableEq

/-- Python dict insertion with the overwrite-in-place semantics of
`d[k] = v` (insertion order is preserved on overwrite). -/
def dictUpsert (d : List (PyStr × Nat)) (k : PyStr) (v : Nat) : List (PyStr × Nat) :=
  if d.any (fun p => p.1 == k) then d.map (fun p => if p.1 == k then (k, v) else p)
  else d ++ [(k, v)]

/-- The dict comprehension `{r['ytid']: r['rowid'] for r in res}`. -/
def dictOf (ps : List (PyStr × Nat)) : List (PyStr × Nat) :=
  ps.foldl (fun d p => dictUpsert d p.1 p.2) []

/-- Python `d[k]` / `k in d` for the working map. -/
def dictGet (d : List (PyStr × Nat)) (k : PyStr) : Option Nat :=
  (d.find? (fun p => p.1 == k)).map (fun p => p.2)

/-- Python `del d[k]`. -/
def dictPop (d : List (PyStr × Nat)) (k : PyStr) : List (PyStr × Nat) :=
  d.filter (fun p => !(p.1 == k))

/-- The reconciliation transaction of `__sync_list_full`
(`ydl/__main__.py:3385-3463`): build the working map of current
membership, either ensure ghost rows for feed-only iids (all-old path) or
upsert memberships, "tombstone" the leftovers, and upsert the item rows.
Line 3437 — the tombstone update — passes the literal string `'?'` as the
rowid key, embedded here exactly as written. -/
def syncListFull (st : Catalog) (key : PyStr) (cur : List EnumItem)
    (rssNew : Option (List PyStr)) (force : Bool) (now : Int) : Catalog :=
  let old := dictOf ((st.vids.filter (fun r => r.name == key)).map (fun r => (r.ytid, r.rowid)))
  let allOld := cur.all (fun v => (dictGet old v.ytid).isSome)
  let weird : List PyStr :=
    match rssNew with
    | some new => (new.filter (fun y => !(cur.any (fun v => v.ytid == y)))).eraseDups
    | none => []
  let res : Option Catalog :=
    if allOld && !force then
      -- lines 3406-3416: ensure a tombstoned membership row and a bare item
      -- row exist for every feed-only ("ghost") iid
      some (weird.foldl (fun s y =>
        let s1 :=
          if (s.vids.find? (fun r => r.ytid == y)).isSome then s
          else vidsInsert s (fun rid =>
            { rowid := rid, name := key, ytid := y, idx := -1, atime := some now })
        if (s1.v.find? (fun r => r.ytid == y)).isSome then s1
        else vInsert s1 (fun rid =>
          { rowid := rid, ytid := y, ctime := none, atime := none,
            dname := some key, skip := false })) st)
    else
      -- lines 3421-3432: upsert membership rows in listing order, removing
      -- each seen iid from the working map
      let p := cur.foldl (fun (p : Catalog × List (PyStr × Nat)) v =>
        match dictGet p.2 v.ytid with
        | some rowid =>
          (vidsUpdateByRowid p.1 (.intV rowid)
             (fun r => { r with idx := v.idx, atime := some now }),
           dictPop p.2 v.ytid)
        | none =>
          (vidsInsert p.1 (fun rid =>
             { rowid := rid, name := key, ytid := v.ytid, idx := v.idx, atime := some now }),
           p.2)) (st, old)
      -- lines 3434-3437: "Remove all old entries that are no longer on the
      -- list by setting index to -1" — the update's rowid key is the
      -- literal string '?' in the source
      let st3 := p.2.foldl (fun s _ =>
        vidsUpdateByRowid s (.textV ("?".toList)) (fun r => { r with idx := -1 })) p.1
      -- lines 3439-3451: upsert the item rows (`title_to_name(None)` on a
      -- title-less enumerated item raises, rolling the transaction back)
      cur.foldlM (fun s v =>
        match v.title with
        | none => none
        | some title =>
          let name := titleToName title
          let u := vUpdateByYtid s v.ytid
            (fun r => { r with atime := none, title := some title, name := some name })
          if u.2 == 0 then
            some (vInsert u.1 (fun rid =>
              { rowid := rid, ytid := v.ytid, ctime := some now, atime := none,
                dname := some key, title := some title, name := some name, skip := false }))
          else some u.1) st3
  match res with
  | some st2 => st2
  | none => st

/-! ## Virtual filesystem (`ydl/fuse.py`) -/

/-- The `os.W_OK` permission bit. -/
def wOK : Nat := 2

/-- `_ydl_fuse.access` (`ydl/fuse.py:418-423`): Python's
`if mode | os.W_OK:` takes the truthy branch exactly when the bitwise OR
is nonzero. -/
def fuseAccess (path : PyStr) (mode : Nat) : Bool :=
  if (mode ||| wOK) != 0 then false else true

/-- `_ydl_fuse.video_path` (`ydl/fuse.py:458-485`), shortcut branch (the
`if True:` arm the source always takes).  `path` is the request path split
on `/` with the leading empty component removed.  `none` models a raise:
either `IndexError` from a too-short path, or the final
`raise FuseOSError(errno.ENOENT)` (whose name is not imported in
`fuse.py`, so it is a `NameError` at runtime — an error either way). -/
def videoPath (rootbase : PyStr) (path : List PyStr) : Option PyStr :=
  let r := if ("..".toList).isPrefixOf rootbase then ("../../".toList) ++ rootbase
           else rootbase
  match path.get? 1 with
  | none => none
  | some p1 =>
    -- source line 467: `if path[1] in ('c', 'ch', 'u', 'pl'):`
    if p1 == "c".toList || p1 == "ch".toList || p1 == "u".toList || p1 == "pl".toList then
      match path.reverse.get? 1, path.reverse.get? 0 with
      | some chan, some fname => some (r ++ ('/' :: chan) ++ ('/' :: fname))
      | _, _ => none
    else if path.get? 0 == some ("v".toList) then
      match path.reverse.get? 0 with
      | none => none
      | some fname =>
        let fnameroot := splitextRoot fname
        match splitOnceChar '-' fnameroot with
        | none => none
        | some parts => some (r ++ ('/' :: parts.1) ++ ('/' :: parts.2) ++ (".mkv".toList))
    else none

/-- `_ydl_fuse.readlink` (`ydl/fuse.py:448-456`):
`path.split('/')[1:]` handed to `video_path`. -/
def fuseReadlink (rootbase : PyStr) (path : PyStr) : Option PyStr :=
  videoPath rootbase ((splitChar '/' path).drop 1)

/-! ## Download coordinator (`_download_video` and helpers, `ydl/__main__.py`)

The media download itself is an external collaborator (spec §1): each
invocation of the downloader is represented by one scripted `Attempt`
outcome, and the `info.json` the downloader leaves on disk by an oracle.
The handling of those outcomes — retries, classification, catalog
mutations — is embedded from the source. -/

/-- Substring tested by the retry handler at line 3877. -/
def netUnreachNeedle : PyStr := "Network is unreachable".toList

/-- Substring tested by the retry handler at line 3894. -/
def dnsTempNeedle : PyStr := "Temporary failure in name resolution".toList

/-- Outcome of one downloader invocation (line 3862): success, a
`DownloadError`, a `URLError`, or a keyboard interrupt. -/
inductive Attempt
  | ok
  | dlErr (txt : PyStr)
  | urlErr (txt : PyStr)
  | keyInt
deriving Repr, DecidableEq

/-- How the `while True:` retry loop (lines 3847-3908) exits, with the
back-off sleeps it performed along the way. -/
inductive RetryOut
  | completed (sleeps : List Nat)
  | raisedDl (txt : PyStr) (sleeps : List Nat)
  | raisedUrl (txt : PyStr) (sleeps : List Nat)
  | interrupted (sleeps : List Nat)
  | scriptEnded (sleeps : List Nat)
deriving Repr, DecidableEq

/-- Record one `time.sleep` in front of a loop outcome. -/
def RetryOut.addSleep (s : Nat) : RetryOut → RetryOut
  | .completed sl => .completed (s :: sl)
  | .raisedDl txt sl => .raisedDl txt (s :: sl)
  | .raisedUrl txt sl => .raisedUrl txt (s :: sl)
  | .interrupted sl => .interrupted (s :: sl)
  | .scriptEnded sl => .scriptEnded (s :: sl)

/-- The retry loop of `_download_actual` (lines 3847-3908), one scripted
attempt outcome per iteration.  Line 3848 sits inside the `while True:`
body, so `retry_count` is re-initialized to 0 at the top of every
iteration — embedded exactly as written.  `scriptEnded` means the loop is
still running after consuming every scripted outcome. -/
def retryLoopRun : List Attempt → RetryOut
  | [] => .scriptEnded []
  | a :: rest =>
    let retryCount : Nat := 0
    match a with
    | .ok => .completed []
    | .dlErr txt =>
      if strHas netUnreachNeedle txt then
        if retryCount ≥ 10 then .raisedDl txt []
        else
          let retryCount := retryCount + 1
          (retryLoopRun rest).addSleep (2 ^ retryCount)
      else .raisedDl txt []
    | .urlErr txt =>
      if strHas dnsTempNeedle txt then
        if retryCount ≥ 10 then .raisedUrl txt []
        else
          let retryCount := retryCount + 1
          (retryLoopRun rest).addSleep (2 ^ retryCount)
      else .raisedUrl txt []
    | .keyInt => .interrupted []

/-- A Python return value of `_download_actual`: `None`, `False` or `True`. -/
inductive PyRes
  | rNone
  | rFalse
  | rTrue
deriving Repr, DecidableEq

/-- Result of `_download_actual`: a returned value, or an exception that
escapes the `except yt_dlp.utils.DownloadError` handler itself (a raise
inside a handler is not caught by the sibling clauses). -/
inductive DAOut
  | res (r : PyRes)
  | raisedFromHandler
deriving Repr, DecidableEq

/-- The announced delay in seconds (lines 3962-3972): `timedelta(days=num)`
when `'day' in parts[1]`, and so on; one day when the unit is
unrecognized. -/
def unitDelay (unitW : PyStr) (num : Int) : Int :=
  if strHas ("day".toList) unitW then num * 86400
  else if strHas ("hour".toList) unitW then num * 3600
  else if strHas ("minute".toList) unitW then num * 60
  else if strHas ("second".toList) unitW then num
  else 86400

/-- The `except yt_dlp.utils.DownloadError` handler of `_download_actual`
(lines 3910-3985): mark-skip classification, then — when auto-sleep is
enabled — parse the announced delay and insert a sleep entry at
`now + delay + 2 hours`. -/
def classifyDlError (st : Catalog) (ytid : PyStr) (autosleep : Bool) (now : Int)
    (txt : PyStr) : Catalog × DAOut :=
  if strHas ("Video unavailable".toList) txt then
    ((vUpdateByYtid st ytid (fun r => { r with skip := true })).1, .res .rNone)
  else if strHas ("access to members-only content".toList) txt then
    ((vUpdateByYtid st ytid (fun r => { r with skip := true })).1, .res .rNone)
  else if strHas ("Sign in to confirm your age".toList) txt then
    ((vUpdateByYtid st ytid (fun r => { r with skip := true })).1, .res .rNone)
  else if strHas ("Private video".toList) txt then
    ((vUpdateByYtid st ytid (fun r => { r with skip := true })).1, .res .rNone)
  else
    -- line 3936's `elif 'live video' in txt:` only prints; control then
    -- reaches the autosleep block in every remaining case
    if autosleep then
      let parts : List PyStr :=
        if strHas ("begin in a few moments".toList) txt then [[], "1 hour".toList]
        else if strHas ("will begin in ".toList) txt then pySplit ("will begin in ".toList) txt
        else if strHas ("Premieres in ".toList) txt then pySplit ("Premieres in ".toList) txt
        else if strHas ("live video".toList) txt then pySplit ("live video for ".toList) txt
        else [[], "1 day".toList]
      match parts.get? 1 with
      | none => (st, .raisedFromHandler)
      | some p1 =>
        let parts2 := splitChar ' ' p1
        match parts2.get? 0 with
        | none => (st, .raisedFromHandler)
        | some numS =>
          match pyInt numS with
          | none => (st, .raisedFromHandler)
          | some num =>
            match parts2.get? 1 with
            | none => (st, .raisedFromHandler)
            | some unitW =>
              let t := now + unitDelay unitW num
              let t := t + 7200
              (vSleepInsert st ytid t, .res .rNone)
    else (st, .res .rNone)

/-- `_download_actual` (lines 3834-3995): run the retry loop, then apply
the exception handlers of the outer `try`.  A `URLError` that escapes the
loop hits the bare `except:` (line 3989, returns `None`); an interrupt
returns `False`; success returns `True`. -/
def downloadActual (st : Catalog) (ytid : PyStr) (autosleep : Bool) (now : Int)
    (attempts : List Attempt) : Catalog × DAOut :=
  match retryLoopRun attempts with
  | .completed _ => (st, .res .rTrue)
  | .raisedDl txt _ => classifyDlError st ytid autosleep now txt
  | .raisedUrl _ _ => (st, .res .rNone)
  | .interrupted _ => (st, .res .rFalse)
  | .scriptEnded _ => (st, .res .rNone)

/-- Fields of the `*-<iid>.info.json` metadata used by the TEMP path. -/
structure InfoJson where
  title : PyStr
  duration : Int
  uploader : PyStr
  thumbnails : PyStr
  uploadDate : Int
  channelId : PyStr
deriving Repr, DecidableEq

/-- The command options the download coordinator consults. -/
structure DlArgs where
  autosleep : Bool := true
  ifSmall : Bool := false
deriving Repr, DecidableEq

/-- Filesystem facts the coordinator reads (existence and size of the
already-downloaded container, and the parsed `info.json` when the
extractor produced one). -/
structure FsOracle where
  mkvExists : Bool := false
  maxFormatSize : Int := 0
  mkvSize : Int := 0
  infoJson : Option InfoJson := none
deriving Repr, DecidableEq

/-- A `dat` dictionary handed to `d.v.update({'rowid': ...}, dat)`: a
field is `some` exactly when the key is present in the dict. -/
structure VDat where
  ytid : Option PyStr := none
  duration : Option Int := none
  title : Option PyStr := none
  name : Option PyStr := none
  uploader : Option PyStr := none
  thumbnails : Option PyStr := none
  ptime : Option Int := none
  ctime : Option Int := none
  atime : Option Int := none
  utime : Option Int := none
  dname : Option PyStr := none
deriving Repr, DecidableEq

/-- Apply a `dat` dictionary to a `v` row (SQL UPDATE of the named
columns). -/
def applyVDat (dat : VDat) (r : VRow) : VRow :=
  { r with
    ytid := dat.ytid.getD r.ytid,
    duration := match dat.duration with | some x => some x | none => r.duration,
    title := match dat.title with | some x => some x | none => r.title,
    name := match dat.name with | some x => some x | none => r.name,
    uploader := match dat.uploader with | some x => some x | none => r.uploader,
    thumbnails := match dat.thumbnails with | some x => some x | none => r.thumbnails,
    ptime := match dat.ptime with | some x => some x | none => r.ptime,
    ctime := match dat.ctime with | some x => some x | none => r.ctime,
    atime := match dat.atime with | some x => some x | none => r.atime,
    utime := match dat.utime with | some x => some x | none => r.utime,
    dname := match dat.dname with | some x => some x | none => r.dname }

/-- What a `_download_video_TEMP` / `_download_video_known` call hands back
to `_download_video` (lines 3616-3628): a `dat` dict, `None`, `False`, or
an exception that escapes. -/
inductive SubRes
  | dict (dat : VDat)
  | pyNone
  | pyFalse
  | raised
deriving Repr, DecidableEq

/-- `_download_video_TEMP` (lines 3648-3741).  Directory creation and the
rename passes are filesystem effects; the catalog-relevant behavior is the
`videoformat` lookup, the download, and the `dat` dictionary built from
`info.json` (with the MISCELLANEOUS `dname` rewrite).  The third component
records whether the downloader was invoked. -/
def downloadVideoTEMP (st : Catalog) (args : DlArgs) (ytid : PyStr) (row : VRow)
    (now : Int) (attempts : List Attempt) (fs : FsOracle) : Catalog × SubRes × Bool :=
  match st.v.find? (fun r => r.ytid == ytid) with
  | none => (st, .raised, false)
  | some _sub =>
    match downloadActual st ytid args.autosleep now attempts with
    | (st2, .raisedFromHandler) => (st2, .raised, true)
    | (st2, .res .rNone) => (st2, .pyNone, true)
    | (st2, .res .rFalse) => (st2, .pyFalse, true)
    | (st2, .res .rTrue) =>
      match fs.infoJson with
      | none => (st2, .raised, true)
      | some ij =>
        let name := titleToName ij.title
        let atime := now
        let ctime := match row.ctime with | none => atime | some c => c
        let dat : VDat :=
          { ytid := some ytid, duration := some ij.duration, title := some ij.title,
            name := some name, uploader := some ij.uploader,
            thumbnails := some ij.thumbnails, ptime := some ij.uploadDate,
            ctime := some ctime, atime := some atime, utime := some atime }
        let dat :=
          if row.dname == some ("MISCELLANEOUS".toList) then
            { dat with dname := some ij.channelId }
          else dat
        (st2, .dict dat, true)

/-- Shared tail of `_download_video_known` after the size gate
(lines 3810-3832): `videoformat` lookup, download, and the
`utime`/`atime` dat on success. -/
def downloadVideoKnownGo (st : Catalog) (args : DlArgs) (ytid : PyStr)
    (now : Int) (attempts : List Attempt) : Catalog × SubRes × Bool :=
  match st.v.find? (fun r => r.ytid == ytid) with
  | none => (st, .raised, false)
  | some _sub =>
    match downloadActual st ytid args.autosleep now attempts with
    | (st2, .raisedFromHandler) => (st2, .raised, true)
    | (st2, .res .rNone) => (st2, .pyNone, true)
    | (st2, .res .rFalse) => (st2, .pyFalse, true)
    | (st2, .res .rTrue) =>
      (st2, .dict { utime := some now, atime := some now }, true)

/-- `_download_video_known` (lines 3743-3832).  The `--if-small` size gate
(lines 3772-3808) may return `None` before the downloader runs; the
source compares `sz / max_sz > 0.80` in floating point, embedded as the
exact comparison `5 * sz > 4 * max_sz`. -/
def downloadVideoKnown (st : Catalog) (args : DlArgs) (ytid : PyStr) (row : VRow)
    (now : Int) (attempts : List Attempt) (fs : FsOracle) : Catalog × SubRes × Bool :=
  match row.name with
  | none => (st, .raised, false)
  | some _nm =>
    if args.ifSmall && fs.mkvExists then
      let delta := fs.maxFormatSize - fs.mkvSize
      if delta ≤ 0 then (st, .pyNone, false)
      else if 5 * fs.mkvSize > 4 * fs.maxFormatSize then (st, .pyNone, false)
      else downloadVideoKnownGo st args ytid now attempts
    else downloadVideoKnownGo st args ytid now attempts

/-- How `_download_video` hands control back to `download_videos`. -/
inductive DVRes
  | raisedErr
  | sleepingSkip
  | abortBatch
  | nextVideo
  | tailContinue
deriving Repr, DecidableEq

/-- Result of one `_download_video` step: the catalog afterwards, whether
the downloader was invoked, and the control outcome.  `tailContinue`
marks the executions that go on into the caption/chapter/hook tail
(lines 3631-3646), which only runs after a successful download. -/
structure DVOut where
  st : Catalog
  invokedDl : Bool
  res : DVRes
deriving Repr, DecidableEq

/-- `_download_video` (lines 3576-3628): preferred-name lookup, `dname`
check, the re-checked sleep gate (lines 3589-3603), dispatch to the TEMP
or known path, and the `dat` dispatch (lines 3616-3628). -/
def downloadVideoStep (st : Catalog) (args : DlArgs) (ytid : PyStr) (row : VRow)
    (now : Int) (attempts : List Attempt) (fs : FsOracle) : DVOut :=
  let _alias := vnamesFind st ytid
  match row.dname with
  | none => ⟨st, false, .raisedErr⟩
  | some _dname =>
    let gate : Catalog × Bool :=
      match vSleepFind st ytid with
      | none => (st, false)
      | some srow =>
        if srow.t > now then (st, true)
        else ({ st with v_sleep := st.v_sleep.filter (fun s => !(s.rowid == srow.rowid)) },
              false)
    if gate.2 then ⟨st, false, .sleepingSkip⟩
    else
      let st1 := gate.1
      let sub :=
        match row.atime with
        | none => downloadVideoTEMP st1 args ytid row now attempts fs
        | some _ => downloadVideoKnown st1 args ytid row now attempts fs
      match sub with
      | (st2, .dict dat, inv) =>
        ⟨vUpdateByRowid st2 (.intV row.rowid) (applyVDat dat), inv, .tailContinue⟩
      | (st2, .pyFalse, inv) => ⟨st2, inv, .abortBatch⟩
      | (st2, .pyNone, inv) => ⟨st2, inv, .nextVideo⟩
      | (st2, .raised, inv) => ⟨st2, inv, .raisedErr⟩

/-- The auto-sleep outcome claim C3 asserts about one coordinator step on
a downloader failure with message `txt`: the `v` table (hence `utime`) is
untouched, a sleep entry at `wake` is appended for the item, and the
batch moves on to the next item. -/
def sleepOutcome (st : Catalog) (args : DlArgs) (row : VRow) (fs : FsOracle)
    (now : Int) (txt : PyStr) (wake : Int) : Prop :=
  let out := downloadVideoStep st args row.ytid row now [.dlErr txt] fs
  out.st.v = st.v ∧
  out.st.v_sleep.map (fun s => (s.ytid, s.t)) =
    st.v_sleep.map (fun s => (s.ytid, s.t)) ++ [(row.ytid, wake)] ∧
  out.res = .nextVideo

/-! ## Concrete fixtures used by witnesses and counterexample runs -/

/-- Fixture: a source `MIT` whose membership holds iid `aaaaaaaaaaa` at
index 1, with the matching item row. -/
def c1St : Catalog :=
  { v := [{ rowid := 1, ytid := "aaaaaaaaaaa".toList, dname := some ("MIT".toList),
            name := some ("Old".toList), ctime := some 10 }],
    vids := [{ rowid := 1, name := "MIT".toList, ytid := "aaaaaaaaaaa".toList,
               idx := 1, atime := some 50 }] }

/-- Fixture: a full enumeration of `MIT` that no longer lists
`aaaaaaaaaaa` and instead lists only `bbbbbbbbbbb`. -/
def c1Enum : List EnumItem :=
  [{ idx := 1, ytid := "bbbbbbbbbbb".toList, title := some ("New".toList) }]

/-- Fixture: an item row eligible for the download coordinator (dname and
name set, never downloaded). -/
def wRow : VRow :=
  { rowid := 1, ytid := "btZ-VFW4wpY".toList, dname := some ("MIT".toList),
    name := some ("Lec01".toList), atime := none }

/-- Fixture: catalog holding just `wRow`. -/
def wSt : Catalog := { v := [wRow] }

/-- Fixture: catalog holding `wRow` plus a sleep entry for it waking at
instant 500. -/
def wStSleep : Catalog :=
  { v := [wRow], v_sleep := [{ rowid := 7, ytid := "btZ-VFW4wpY".toList, t := 500 }] }

/-- Fixture: an item with a sleep entry, for the mark-skip witness. -/
def c7St : Catalog :=
  { v := [{ rowid := 3, ytid := "xyz11111111".toList, dname := some ("MIT".toList) }],
    v_sleep := [{ rowid := 9, ytid := "xyz11111111".toList, t := 999 }] }

/-- Fixture: `c7St` after marking `xyz11111111` skipped. -/
def c7StAfter : Catalog :=
  { v := [{ rowid := 3, ytid := "xyz11111111".toList, dname := some ("MIT".toList),
            skip := true }],
    v_sleep := [] }

/-- The effective name exactly as the spec words it (§4.B):
`alias if alias else (name if name else "TEMP")`.  Stated separately from
the source's `format_v_names` so claim C6 can compare the two. -/
def specEffectiveName (nm al : Option PyStr) : PyStr :=
  match al with
  | some a => a
  | none =>
    match nm with
    | some n => n
    | none => "TEMP".toList

/-! ## Supporting lemmas: substring occurrence -/

theorem strHas_iff {n l : PyStr} :
    strHas n l = true ↔ ∃ pre post, l = pre ++ n ++ post := by
  induction l with
  | nil =>
    cases n with
    | nil =>
      constructor
      · intro _; exact ⟨[], [], rfl⟩
      · intro _; rfl
    | cons c n' =>
      simp only [strHas, List.isEmpty_cons]
      constructor
      · intro h; simp at h
      · rintro ⟨pre, post, h⟩
        exact absurd (congrArg List.length h)
          (by simp only [List.length_nil, List.length_append, List.length_cons]; omega)
  | cons c rest ih =>
    simp only [strHas, Bool.or_eq_true, ih]
    constructor
    · rintro (hp | ⟨pre, post, rfl⟩)
      · rw [ List.isPrefixOf_iff_prefix] at hp
        obtain ⟨t, ht⟩ := hp
        exact ⟨[], t, by simp [← ht]⟩
      · exact ⟨c :: pre, post, rfl⟩
    · rintro ⟨pre, post, h⟩
      match pre with
      | [] =>
        left
        rw [ List.isPrefixOf_iff_prefix]
        exact ⟨post, by simpa using h.symm⟩
      | p :: pre' =>
        right
        rw [List.cons_append, List.cons_append] at h
        injection h with h1 h2
        exact ⟨pre', post, h2⟩

theorem strHas_subset {n l : PyStr} (h : strHas n l = true) : ∀ c ∈ n, c ∈ l := by
  rw [strHas_iff] at h
  obtain ⟨pre, post, rfl⟩ := h
  intro c hc
  simp [hc]

theorem strHas_eq_false_of_not_mem {n l : PyStr} {c : Char} (hc : c ∈ n) (hl : c ∉ l) :
    strHas n l = false := by
  by_contra h
  rw [Bool.not_eq_false] at h
  exact hl (strHas_subset h c hc)

theorem strHas_left {n rest : PyStr} : strHas n (n ++ rest) = true :=
  strHas_iff.2 ⟨[], rest, by simp⟩

theorem strHas_append_split {n xs ys : PyStr} (h : strHas n (xs ++ ys) = true) :
    strHas n xs = true ∨ strHas n ys = true ∨
      ∃ n1 n2, n = n1 ++ n2 ∧ n1 ≠ [] ∧ n2 ≠ [] ∧
        (∃ a, xs = a ++ n1) ∧ ∃ b, ys = n2 ++ b := by
  rw [strHas_iff] at h
  obtain ⟨pre, post, hsplit⟩ := h
  rw [List.append_assoc] at hsplit
  rcases List.append_eq_append_iff.1 hsplit with ⟨a', hpre, hys⟩ | ⟨c', hxs, hnd⟩
  · right; left
    exact strHas_iff.2 ⟨a', post, by simp [hys]⟩
  · rcases List.append_eq_append_iff.1 hnd with ⟨a', hc', hpost⟩ | ⟨k, hn, hys2⟩
    · left
      exact strHas_iff.2 ⟨pre, a', by simp [hxs, hc']⟩
    · rcases eq_or_ne c' [] with rfl | hc'ne
      · right; left
        simp only [List.nil_append] at hn
        exact strHas_iff.2 ⟨[], post, by simp [hys2, hn]⟩
      · rcases eq_or_ne k [] with rfl | hkne
        · left
          rw [List.append_nil] at hn
          exact strHas_iff.2 ⟨pre, [], by simp [hxs, hn]⟩
        · right; right
          exact ⟨c', k, hn, hc'ne, hkne, ⟨pre, hxs⟩, ⟨post, hys2⟩⟩

theorem strHas_sandwich {n sep ds tl : PyStr}
    (hn : n ≠ []) (hnd : ∀ c ∈ n, pyDigit c = false)
    (hds : ∀ c ∈ ds, pyDigit c = true) (hds0 : ds ≠ [])
    (h1 : strHas n sep = false) (h2 : strHas n tl = false) :
    strHas n (sep ++ (ds ++ tl)) = false := by
  by_contra hcon
  rw [Bool.not_eq_false] at hcon
  rcases strHas_append_split hcon with hx | hy | ⟨n1, n2, hsum, hn1, hn2, ⟨a, ha⟩, ⟨b, hb⟩⟩
  · rw [h1] at hx; exact absurd hx (by simp)
  · rcases strHas_append_split hy with hd | ht | ⟨n1, n2, hsum, hn1, hn2, ⟨a, ha⟩, ⟨b, hb⟩⟩
    · obtain ⟨c, hcn⟩ := List.exists_mem_of_ne_nil n hn
      have hcds : c ∈ ds := strHas_subset hd c hcn
      have := hds c hcds
      rw [hnd c hcn] at this
      exact absurd this (by simp)
    · rw [h2] at ht; exact absurd ht (by simp)
    · obtain ⟨c, hcn1⟩ := List.exists_mem_of_ne_nil n1 hn1
      have hcds : c ∈ ds := by rw [ha]; exact List.mem_append_right a hcn1
      have hcn : c ∈ n := by rw [hsum]; exact List.mem_append_left n2 hcn1
      have := hds c hcds
      rw [hnd c hcn] at this
      exact absurd this (by simp)
  · match ds, n2, hds0, hn2 with
    | d0 :: ds', x :: n2', _, _ =>
      rw [List.cons_append] at hb
      injection hb with hb1 hb2
      have hxn : x ∈ n := by rw [hsum]; exact List.mem_append_right n1 (by simp)
      have hxds : d0 ∈ d0 :: ds' := by simp
      have := hds d0 hxds
      rw [hb1, hnd x hxn] at this
      exact absurd this (by simp)

theorem strHas_cons_of {n : PyStr} {h0 : Char} {rest : PyStr}
    (hne : n ≠ []) (hhead : n.head? ≠ some h0)
    (hc : ∃ c, c ∈ n ∧ c ∉ rest) :
    strHas n (h0 :: rest) = false := by
  by_contra hcon
  rw [Bool.not_eq_false, strHas_iff] at hcon
  obtain ⟨pre, post, heq⟩ := hcon
  match pre with
  | [] =>
    simp only [List.nil_append] at heq
    match n, hne with
    | x :: n', _ =>
      rw [List.cons_append] at heq
      injection heq with heq1 _
      exact hhead (by simp [heq1])
  | p :: pre' =>
    rw [List.cons_append] at heq
    injection heq with _ heq2
    obtain ⟨c, hcn, hcrest⟩ := hc
    exact hcrest (by rw [heq2]; exact List.mem_append_left post (List.mem_append_right pre' hcn))

/-! ## Supporting lemmas: splitting -/

theorem pySplitGo_no_occ {s0 : Char} {stl t : PyStr}
    (h : strHas (s0 :: stl) t = false) (acc : PyStr) :
    pySplitGo s0 stl t acc = [acc.reverse ++ t] := by
  induction t generalizing acc with
  | nil => simp [pySplitGo]
  | cons c rest ih =>
    rw [strHas] at h
    obtain ⟨hp, h'⟩ := Bool.or_eq_false_iff.1 h
    rw [pySplitGo, if_neg (by simp [hp]), ih h']
    simp

theorem pySplitGo_cut {s0 : Char} {stl t : PyStr} (acc : PyStr) :
    pySplitGo s0 stl ((s0 :: stl) ++ t) acc = acc.reverse :: pySplitGo s0 stl t [] := by
  have hp : (s0 :: stl).isPrefixOf (s0 :: (stl ++ t)) = true := by
    rw [ List.isPrefixOf_iff_prefix, ← List.cons_append]
    exact ⟨t, rfl⟩
  rw [List.cons_append, pySplitGo, if_pos (by simp [hp]), List.drop_left]

theorem pySplit_sep_append {s0 : Char} {stl t : PyStr}
    (h : strHas (s0 :: stl) t = false) :
    pySplit (s0 :: stl) ((s0 :: stl) ++ t) = [[], t] := by
  show pySplitGo s0 stl ((s0 :: stl) ++ t) [] = [[], t]
  rw [pySplitGo_cut, pySplitGo_no_occ h]
  rfl

theorem splitChar_not_mem {sp : Char} {l : PyStr} (h : sp ∉ l) :
    splitChar sp l = [l] := by
  induction l with
  | nil => rfl
  | cons c rest ih =>
    have hc : (c == sp) = false := by
      rw [beq_eq_false_iff_ne]
      rintro rfl
      exact h (by simp)
    have h' : sp ∉ rest := fun hm => h (by simp [hm])
    simp only [splitChar, ih h', hc]
    rfl

theorem splitChar_append_cons {sp : Char} {a b : PyStr} (h : sp ∉ a) :
    splitChar sp (a ++ sp :: b) = a :: splitChar sp b := by
  induction a with
  | nil =>
    simp only [List.nil_append, splitChar, beq_self_eq_true]
    rfl
  | cons x a' ih =>
    have hx : (x == sp) = false := by
      rw [beq_eq_false_iff_ne]
      rintro rfl
      exact h (by simp)
    have h' : sp ∉ a' := fun hm => h (by simp [hm])
    rw [List.cons_append]
    simp only [splitChar, ih h', hx]
    rfl

theorem splitChar_two {sp : Char} {a b : PyStr} (ha : sp ∉ a) (hb : sp ∉ b) :
    splitChar sp (a ++ sp :: b) = [a, b] := by
  rw [splitChar_append_cons ha, splitChar_not_mem hb]

/-! ## Supporting lemmas: whitespace, digits, `int()` -/

theorem digit_not_ws {c : Char} (h : pyDigit c = true) : isWsChar c = false := by
  have h' : 48 ≤ c.toNat ∧ c.toNat ≤ 57 := by simpa [pyDigit] using h
  simp only [isWsChar, Bool.or_eq_false_iff, beq_eq_false_iff_ne, ne_eq]
  omega

theorem digit_ne_minus {c : Char} (h : pyDigit c = true) : (c == '-') = false := by
  rw [beq_eq_false_iff_ne]
  rintro rfl
  exact absurd h (by decide)

theorem digit_ne_plus {c : Char} (h : pyDigit c = true) : (c == '+') = false := by
  rw [beq_eq_false_iff_ne]
  rintro rfl
  exact absurd h (by decide)

theorem digit_ne_space {c : Char} (h : pyDigit c = true) : c ≠ ' ' := by
  rintro rfl
  exact absurd h (by decide)

theorem pyStrip_eq_self {l : PyStr}
    (h1 : ∀ c, l.head? = some c → isWsChar c = false)
    (h2 : ∀ c, l.getLast? = some c → isWsChar c = false) :
    pyStrip l = l := by
  unfold pyStrip
  have d1 : l.dropWhile isWsChar = l := by
    cases l with
    | nil => rfl
    | cons c rest =>
      rw [List.dropWhile_cons, if_neg (by simp [h1 c rfl])]
  rw [d1]
  have d2 : l.reverse.dropWhile isWsChar = l.reverse := by
    cases hrev : l.reverse with
    | nil => rfl
    | cons c rest =>
      have hlast : l.getLast? = some c := by
        rw [← List.head?_reverse, hrev]
        rfl
      rw [List.dropWhile_cons, if_neg (by simp [h2 c hlast])]
  rw [d2, List.reverse_reverse]

theorem pyInt_digits {ds : PyStr} (h0 : ds ≠ []) (hd : ∀ c ∈ ds, pyDigit c = true) :
    pyInt ds = some (digitsVal ds) := by
  match ds, h0 with
  | c :: rest, _ =>
    have hstrip : pyStrip (c :: rest) = c :: rest := by
      apply pyStrip_eq_self
      · intro x hx
        rw [List.head?_cons, Option.some_inj] at hx
        exact digit_not_ws (hx ▸ hd c (by simp))
      · intro x hx
        exact digit_not_ws (hd x (List.mem_of_getLast?_eq_some hx))
    rw [pyInt, hstrip]
    dsimp only
    rw [if_neg (by simp [digit_ne_minus (hd c (by simp))]),
        if_neg (by simp [digit_ne_plus (hd c (by simp))]),
        if_pos (by simp only [List.all_eq_true]; exact fun x hx => hd x hx)]

/-! ## Claim C10: the VFS access operation denies every request -/

/-- C10: `access` returns `False` for every path and every mode, including
read-only and execute-only probes, because its test is the bitwise OR of
the mode with `os.W_OK`, which is nonzero for every input. -/
theorem C10_access_denies_all (path : PyStr) (mode : Nat) :
    fuseAccess path mode = false := by
  have h2 : (mode ||| wOK) ≠ 0 := by
    intro h0
    have hb : (mode ||| wOK).testBit 1 = true := by
      rw [Nat.testBit_or]
      have hw : wOK.testBit 1 = true := by decide
      simp [hw]
    rw [h0] at hb
    simp [Nat.zero_testBit] at hb
  unfold fuseAccess
  rw [if_pos (by simpa using h2)]

/-! ## Claim C6: path formatting -/

/-- C6: for every dname, name, alias, non-empty iid and suffix,
`format_v_names` returns the shard directory `<cwd>/<dname>/<iid[0]>` and
the file name `<effective>-<iid>.<suffix>` where the effective name is the
spec's `alias if alias else (name if name else "TEMP")`; with no suffix
the file name is `<effective>-<iid>` with no trailing dot. -/
theorem C6_format_v_names (cwd dname : PyStr) (nm al : Option PyStr) (c : Char)
    (rest : PyStr) (sfx : PyStr) :
    format_v_names cwd dname nm al (c :: rest) (some sfx) =
      some (cwd ++ ('/' :: dname) ++ ['/', c],
            specEffectiveName nm al ++ ('-' :: (c :: rest)) ++ ('.' :: sfx)) ∧
    format_v_names cwd dname nm al (c :: rest) none =
      some (cwd ++ ('/' :: dname) ++ ['/', c],
            specEffectiveName nm al ++ ('-' :: (c :: rest))) := by
  cases nm <;> cases al <;> exact ⟨rfl, rfl⟩

/-! ## Claim C5: registering a stand-alone watch URL -/

/-- C5 as frozen is false on the code: registering `btZ-VFW4wpY` in an
empty catalog creates a row whose `ctime` is the registration instant, not
NULL (`db.add_video` passes `ctime=_now()`). -/
theorem C5_counterexample :
    ((addVideoUrl {} ("btZ-VFW4wpY".toList) 12345).v.map (fun r => r.ctime)) =
        [some 12345] ∧
    ¬ ((addVideoUrl {} ("btZ-VFW4wpY".toList) 12345).v.map (fun r => r.ctime)) =
        [none] := by
  constructor
  · rfl
  · decide

/-- C5 (amended): registering a watch URL for an iid not yet in the
catalog creates exactly one item row with that iid, `dname=MISCELLANEOUS`,
`skip=false`, `ptime`/`atime`/`utime` NULL and `ctime` set to the
registration instant; registering the same iid again changes nothing. -/
theorem C5_add_video (st : Catalog) (ytid : PyStr) (now now2 : Int)
    (h : vFind st ytid = none) :
    ((addVideoUrl st ytid now).v.filter (fun r => r.ytid == ytid)).map
        (fun r => (r.dname, r.skip, r.ptime, r.ctime, r.atime, r.utime)) =
      [(some ("MISCELLANEOUS".toList), false, none, some now, none, none)] ∧
    addVideoUrl (addVideoUrl st ytid now) ytid now2 = addVideoUrl st ytid now := by
  have hall : ∀ r ∈ st.v, ¬ (r.ytid == ytid) = true := by
    intro r hr
    exact (List.find?_eq_none.1 h) r hr
  have hfilter : st.v.filter (fun r => r.ytid == ytid) = [] := by
    rw [List.filter_eq_nil_iff]
    exact hall
  constructor
  · unfold addVideoUrl
    rw [h]
    unfold vInsert
    simp only [List.filter_append, hfilter, List.nil_append, List.filter_cons]
    simp
  · have hfind2 : vFind (addVideoUrl st ytid now) ytid =
        some { rowid := freshRowid (st.v.map (fun r => r.rowid)), ytid := ytid,
               skip := false, dname := some ("MISCELLANEOUS".toList), ctime := some now } := by
      unfold addVideoUrl
      rw [h]
      unfold vInsert vFind
      rw [List.find?_append]
      unfold vFind at h
      rw [h]
      simp
    generalize hA : addVideoUrl st ytid now = A at hfind2 ⊢
    unfold addVideoUrl
    rw [hfind2]

/-! ## Claim C7: mark-skip deletes the sleep entry atomically -/

/-- C7: marking an item skipped (one transaction) leaves the catalog with
the item's `skip` flag true and no sleep-registry entry for that iid. -/
theorem C7_skip_clears_sleep (st st' : Catalog) (ytid : PyStr)
    (h : skipVideo st ytid = some st') :
    (st'.v.any (fun r => r.ytid == ytid && r.skip)) = true ∧
    (st'.v_sleep.all (fun s => !(s.ytid == ytid))) = true := by
  unfold skipVideo at h
  cases hf : vFind st ytid with
  | none => rw [hf] at h; cases h
  | some row =>
    rw [hf] at h
    injection h with h
    subst h
    constructor
    · have hf' : List.find? (fun r => r.ytid == ytid) st.v = some row := hf
      have hmem : row ∈ st.v := List.mem_of_find?_eq_some hf'
      have hpred : (row.ytid == ytid) = true :=
        @List.find?_some VRow (fun r => r.ytid == ytid) row st.v hf'
      rw [List.any_eq_true]
      refine ⟨(fun r => if rowidMatches r.rowid (.intV row.rowid)
                then { r with skip := true } else r) row, ?_, ?_⟩
      · exact List.mem_map_of_mem _ hmem
      · have : rowidMatches row.rowid (.intV row.rowid) = true := by
          simp [rowidMatches]
        simp [this, hpred]
    · rw [List.all_eq_true]
      intro s hs
      exact (List.mem_filter.1 hs).2

/-- Witness for C7 at the concrete fixture: item `xyz11111111` with a
pending sleep entry. -/
theorem C7_skip_clears_sleep_witness :
    (c7StAfter.v.any (fun r => r.ytid == "xyz11111111".toList && r.skip)) = true ∧
    (c7StAfter.v_sleep.all (fun s => !(s.ytid == "xyz11111111".toList))) = true :=
  C7_skip_clears_sleep c7St c7StAfter ("xyz11111111".toList) (by decide)

/-! ## Claim C8: VFS symlink targets versus the on-disk layout -/

/-- C8 evaluated on the code: a per-source link path errors in `readlink`
(the source tests `path[1]` instead of `path[0]`), and a date-view link
path yields `base/MIT/Lec01-btZ-VFW4wpY.mkv`, which is not the on-disk
layout `base/MIT/b/Lec01-btZ-VFW4wpY.mkv` produced by `format_v_fname`
(the `<iid[0]>` shard directory is missing). -/
theorem C8_readlink_mismatch :
    fuseReadlink ("base".toList) ("/c/MIT/Lec01-btZ-VFW4wpY.mkv".toList) = none ∧
    fuseReadlink ("base".toList)
        ("/v/date_publish/2020/11/28/MIT-Lec01-btZ-VFW4wpY.mkv".toList) =
      some ("base/MIT/Lec01-btZ-VFW4wpY.mkv".toList) ∧
    format_v_fname ("base".toList) ("MIT".toList) (some ("Lec01".toList)) none
        ("btZ-VFW4wpY".toList) (some ("mkv".toList)) =
      some ("base/MIT/b/Lec01-btZ-VFW4wpY.mkv".toList) ∧
    ¬ (("base/MIT/Lec01-btZ-VFW4wpY.mkv".toList : PyStr) =
        "base/MIT/b/Lec01-btZ-VFW4wpY.mkv".toList) := by
  refine ⟨rfl, rfl, rfl, by decide⟩

/-! ## Claim C4: the network retry loop never reaches its cap -/

/-- C4 evaluated on the code: because line 3848 re-initializes
`retry_count` inside the `while True:` body, a run of `n` consecutive
network-unreachable failures — for any `n`, including more than 10 — is
retried to completion with a constant 2-second sleep each time; the loop
neither caps at 10 attempts nor backs off exponentially. -/
theorem C4_retry_cap_never_reached (n : Nat) :
    retryLoopRun (List.replicate n (.dlErr netUnreachNeedle) ++ [.ok]) =
      .completed (List.replicate n 2) := by
  induction n with
  | zero => rfl
  | succ k ih =>
    rw [List.replicate_succ, List.cons_append]
    have ht : strHas netUnreachNeedle netUnreachNeedle = true := by
      have := @strHas_left netUnreachNeedle []
      simpa using this
    rw [retryLoopRun]
    simp only [ht, if_true, if_pos]
    rw [if_neg (by omega)]
    rw [ih]
    rfl

/-! ## Claim C1: tombstoning after a full enumeration -/

/-- C1 evaluated on the code at the failing input: after a full
enumeration of `MIT` that no longer lists `aaaaaaaaaaa`, the stale
membership row does persist (and its item row is not deleted), but its
`idx` is still `1` rather than the tombstone `-1`: the update at
`ydl/__main__.py:3437` binds the literal string `'?'` as the rowid key,
which matches no row. -/
theorem C1_tombstone_not_applied :
    ((syncListFull c1St ("MIT".toList) c1Enum none false 100).vids.filter
        (fun r => r.ytid == "aaaaaaaaaaa".toList)).map (fun r => (r.name, r.idx)) =
      [("MIT".toList, (1 : Int))] ∧
    ¬ (((syncListFull c1St ("MIT".toList) c1Enum none false 100).vids.filter
        (fun r => r.ytid == "aaaaaaaaaaa".toList)).map (fun r => (r.name, r.idx)) =
      [("MIT".toList, (-1 : Int))]) ∧
    ((syncListFull c1St ("MIT".toList) c1Enum none false 100).v.any
        (fun r => r.ytid == "aaaaaaaaaaa".toList)) = true := by
  refine ⟨rfl, by decide, rfl⟩

/-! ## Claim C2: the sleep gate -/

/-- C2: when the item's sleep-registry entry has a wake instant strictly
in the future at the moment `_download_video` examines it, the step
returns without invoking the downloader (step 4 is never entered) and
with the catalog — including the sleep entry itself — unchanged. -/
theorem C2_sleep_gate (st : Catalog) (args : DlArgs) (ytid : PyStr) (row : VRow)
    (now : Int) (attempts : List Attempt) (fs : FsOracle) (srow : VSleepRow)
    (hdn : row.dname.isSome = true)
    (hfind : vSleepFind st ytid = some srow)
    (hfut : now < srow.t) :
    downloadVideoStep st args ytid row now attempts fs =
      ⟨st, false, .sleepingSkip⟩ := by
  obtain ⟨d, hd⟩ := Option.isSome_iff_exists.1 hdn
  unfold downloadVideoStep
  rw [hd]
  dsimp only
  rw [hfind]
  dsimp only
  rw [if_pos hfut]
  rfl

/-- Witness for C2: item `btZ-VFW4wpY` sleeping until instant 500,
examined at instant 100. -/
theorem C2_sleep_gate_witness :
    downloadVideoStep wStSleep {} ("btZ-VFW4wpY".toList) wRow 100 [] {} =
      ⟨wStSleep, false, .sleepingSkip⟩ :=
  C2_sleep_gate wStSleep {} ("btZ-VFW4wpY".toList) wRow 100 [] {}
    ⟨7, "btZ-VFW4wpY".toList, 500⟩ (by decide) (by decide) (by decide)

/-! ## Supporting lemmas for claim C3 -/

theorem strHas_over_digits (n ds tl : PyStr) (hn : n ≠ [])
    (hnd : ∀ c ∈ n, pyDigit c = false) (hds : ∀ c ∈ ds, pyDigit c = true)
    (hds0 : ds ≠ []) (h2 : strHas n tl = false) : strHas n (ds ++ tl) = false := by
  have h1 : strHas n [] = false := by
    cases n with
    | nil => exact absurd rfl hn
    | cons a b => rfl
  have := @strHas_sandwich n [] ds tl hn hnd hds hds0 h1 h2
  simpa using this

theorem lower_not_space {c : Char} (h : isLowerAlpha c = true) : c ≠ ' ' := by
  rintro rfl
  exact absurd h (by decide)

theorem not_mem_of_lower {unitW : PyStr} {c : Char}
    (hl : ∀ x ∈ unitW, isLowerAlpha x = true) (hcu : isLowerAlpha c = false) :
    c ∉ unitW := by
  intro hm
  rw [hl c hm] at hcu
  cases hcu

theorem space_not_mem_of_lower {unitW : PyStr}
    (hl : ∀ x ∈ unitW, isLowerAlpha x = true) : ' ' ∉ unitW :=
  not_mem_of_lower hl (by decide)

theorem strHas_tail_false_of_char {needle unitW : PyStr} {c : Char}
    (hcn : c ∈ needle) (hcu : isLowerAlpha c = false) (hcsp : c ≠ ' ')
    (hl : ∀ x ∈ unitW, isLowerAlpha x = true) :
    strHas needle (' ' :: unitW) = false := by
  apply strHas_eq_false_of_not_mem hcn
  simp only [List.mem_cons]
  rintro (rfl | hm)
  · exact hcsp rfl
  · exact absurd (hl c hm) (by simp [hcu])

theorem strHas_tail_false_of_space {needle unitW : PyStr}
    (hne : needle ≠ []) (hh : needle.head? ≠ some ' ') (hsp : ' ' ∈ needle)
    (hl : ∀ x ∈ unitW, isLowerAlpha x = true) :
    strHas needle (' ' :: unitW) = false :=
  strHas_cons_of hne hh ⟨' ', hsp, space_not_mem_of_lower hl⟩

theorem ds_no_space {ds : PyStr} (hds : ∀ c ∈ ds, pyDigit c = true) : ' ' ∉ ds := by
  intro hm
  exact digit_ne_space (hds ' ' hm) rfl

/-- Core evaluation of the auto-sleep classifier on a message of the shape
`Premieres in <digits> <unit>`: a sleep entry is produced at
`now + unitDelay(unit, N) + 2 hours` and nothing else changes. -/
theorem classify_premieres_eval (st : Catalog) (ytid : PyStr) (now : Int)
    (ds unitW : PyStr)
    (hds0 : ds ≠ []) (hds : ∀ c ∈ ds, pyDigit c = true)
    (t1 : strHas ("Video unavailable".toList) (' ' :: unitW) = false)
    (t2 : strHas ("access to members-only content".toList) (' ' :: unitW) = false)
    (t3 : strHas ("Sign in to confirm your age".toList) (' ' :: unitW) = false)
    (t4 : strHas ("Private video".toList) (' ' :: unitW) = false)
    (t5 : strHas ("begin in a few moments".toList) (' ' :: unitW) = false)
    (t6 : strHas ("will begin in ".toList) (' ' :: unitW) = false)
    (t7 : strHas ("Premieres in ".toList) (' ' :: unitW) = false)
    (hspu : ' ' ∉ unitW) :
    classifyDlError st ytid true now ("Premieres in ".toList ++ (ds ++ ' ' :: unitW)) =
      (vSleepInsert st ytid (now + unitDelay unitW (digitsVal ds) + 7200),
       .res .rNone) := by
  have f1 := @strHas_sandwich ("Video unavailable".toList) ("Premieres in ".toList)
    ds (' ' :: unitW) (by decide) (by decide) hds hds0 (by decide) t1
  have f2 := @strHas_sandwich ("access to members-only content".toList)
    ("Premieres in ".toList) ds (' ' :: unitW) (by decide) (by decide) hds hds0
    (by decide) t2
  have f3 := @strHas_sandwich ("Sign in to confirm your age".toList)
    ("Premieres in ".toList) ds (' ' :: unitW) (by decide) (by decide) hds hds0
    (by decide) t3
  have f4 := @strHas_sandwich ("Private video".toList) ("Premieres in ".toList)
    ds (' ' :: unitW) (by decide) (by decide) hds hds0 (by decide) t4
  have f5 := @strHas_sandwich ("begin in a few moments".toList)
    ("Premieres in ".toList) ds (' ' :: unitW) (by decide) (by decide) hds hds0
    (by decide) t5
  have f6 := @strHas_sandwich ("will begin in ".toList) ("Premieres in ".toList)
    ds (' ' :: unitW) (by decide) (by decide) hds hds0 (by decide) t6
  have fSEP := strHas_over_digits ("Premieres in ".toList) ds (' ' :: unitW)
    (by decide) (by decide) hds hds0 t7
  have hsplit : pySplit ("Premieres in ".toList)
      (("Premieres in ".toList) ++ (ds ++ ' ' :: unitW)) = [[], ds ++ ' ' :: unitW] :=
    pySplit_sep_append fSEP
  have hsc : splitChar ' ' (ds ++ ' ' :: unitW) = [ds, unitW] :=
    splitChar_two (ds_no_space hds) hspu
  have bf : ∀ {b : Bool}, b = false → ¬(b = true) := fun h => by simp [h]
  simp only [classifyDlError]
  rw [if_neg (bf f1), if_neg (bf f2), if_neg (bf f3), if_neg (bf f4), if_pos True.intro,
      if_neg (bf f5), if_neg (bf f6),
      if_pos (@strHas_left ("Premieres in ".toList) (ds ++ ' ' :: unitW)), hsplit]
  dsimp only [List.get?]
  rw [hsc]
  dsimp only [List.get?]
  rw [pyInt_digits hds0 hds]

/-- Evaluation of the classifier on the exact message
`begin in a few moments`: one hour plus the two-hour buffer. -/
theorem classify_few_moments (st : Catalog) (ytid : PyStr) (now : Int) :
    classifyDlError st ytid true now ("begin in a few moments".toList) =
      (vSleepInsert st ytid (now + 3600 + 7200), .res .rNone) := by
  simp only [classifyDlError]
  rw [if_neg (by decide), if_neg (by decide), if_neg (by decide), if_neg (by decide),
      if_pos True.intro, if_pos (by decide)]
  rfl

/-- Driving a downloader failure with message `txt` through
`_download_video`: when the gate lets the run reach the downloader and the
classifier answers with a sleep insertion, the step ends in `nextVideo`
with only the sleep table extended. -/
theorem step_sleeps (st : Catalog) (args : DlArgs) (row : VRow) (fs : FsOracle)
    (now wake : Int) (txt : PyStr)
    (hauto : args.autosleep = true)
    (hdn : row.dname.isSome = true)
    (hsleep : vSleepFind st row.ytid = none)
    (hsub : (st.v.find? (fun r => r.ytid == row.ytid)).isSome = true)
    (hpath : row.atime = none ∨ (row.name ≠ none ∧ args.ifSmall = false))
    (hnet : strHas netUnreachNeedle txt = false)
    (hclass : classifyDlError st row.ytid true now txt =
      (vSleepInsert st row.ytid wake, .res .rNone)) :
    sleepOutcome st args row fs now txt wake := by
  obtain ⟨d, hd⟩ := Option.isSome_iff_exists.1 hdn
  obtain ⟨sub, hsub'⟩ := Option.isSome_iff_exists.1 hsub
  have hr : retryLoopRun [.dlErr txt] = .raisedDl txt [] := by
    simp only [retryLoopRun, hnet, Bool.false_eq_true, if_false]
  have hda : downloadActual st row.ytid args.autosleep now [.dlErr txt] =
      (vSleepInsert st row.ytid wake, .res .rNone) := by
    unfold downloadActual
    rw [hr]
    dsimp only
    rw [hauto, hclass]
  have hout : downloadVideoStep st args row.ytid row now [.dlErr txt] fs =
      ⟨vSleepInsert st row.ytid wake, true, .nextVideo⟩ := by
    unfold downloadVideoStep
    rw [hd]
    dsimp only
    rw [hsleep]
    dsimp only
    rcases hpath with hat | ⟨hnm, hsmall⟩
    · rw [hat]
      dsimp only
      unfold downloadVideoTEMP
      rw [hsub', hda]
      rfl
    · match hn : row.name with
      | none => exact absurd hn hnm
      | some nm =>
        match hat : row.atime with
        | none =>
          try dsimp only
          unfold downloadVideoTEMP
          rw [hsub', hda]
          rfl
        | some a =>
          try dsimp only
          unfold downloadVideoKnown
          rw [hn]
          try dsimp only
          rw [hsmall]
          try dsimp only
          unfold downloadVideoKnownGo
          rw [hsub', hda]
          rfl
  unfold sleepOutcome
  rw [hout]
  refine ⟨rfl, ?_, rfl⟩
  simp [vSleepInsert]

theorem ne_true_of_eq_false {b : Bool} (h : b = false) : ¬(b = true) := by
  simp [h]

theorem unitDelay_days (num : Int) : unitDelay ("days".toList) num = num * 86400 := by
  unfold unitDelay
  rw [if_pos (by decide)]

theorem unitDelay_hours (num : Int) : unitDelay ("hours".toList) num = num * 3600 := by
  unfold unitDelay
  rw [if_neg (by decide), if_pos (by decide)]

theorem unitDelay_minutes (num : Int) : unitDelay ("minutes".toList) num = num * 60 := by
  unfold unitDelay
  rw [if_neg (by decide), if_neg (by decide), if_pos (by decide)]

theorem unitDelay_seconds (num : Int) : unitDelay ("seconds".toList) num = num := by
  unfold unitDelay
  rw [if_neg (by decide), if_neg (by decide), if_neg (by decide), if_pos (by decide)]

theorem unitDelay_unknown {unitW : PyStr} (num : Int)
    (h1 : strHas ("day".toList) unitW = false)
    (h2 : strHas ("hour".toList) unitW = false)
    (h3 : strHas ("minute".toList) unitW = false)
    (h4 : strHas ("second".toList) unitW = false) :
    unitDelay unitW num = 86400 := by
  unfold unitDelay
  rw [if_neg (ne_true_of_eq_false h1), if_neg (ne_true_of_eq_false h2),
      if_neg (ne_true_of_eq_false h3), if_neg (ne_true_of_eq_false h4)]

/-! ## Claim C3: auto-sleep on premiere/live announcements -/

/-- C3: with auto-sleep enabled, a downloader failure whose message is
`Premieres in N <unit>` (unit days/hours/minutes/seconds) inserts a sleep
entry at `now + N·unit + 2 hours`; the message `begin in a few moments`
gives `now + 1 hour + 2 hours`; an unrecognized unit gives
`now + 1 day + 2 hours`.  In every case the `v` table — and with it the
item's NULL `utime` — is untouched (`sleepOutcome` states all three
facts). -/
theorem C3_autosleep_premieres (st : Catalog) (args : DlArgs) (row : VRow)
    (fs : FsOracle) (now : Int)
    (hauto : args.autosleep = true)
    (hdn : row.dname.isSome = true)
    (hsleep : vSleepFind st row.ytid = none)
    (hsub : (st.v.find? (fun r => r.ytid == row.ytid)).isSome = true)
    (hpath : row.atime = none ∨ (row.name ≠ none ∧ args.ifSmall = false)) :
    (∀ ds unitW secs, ds ≠ [] → (∀ c ∈ ds, pyDigit c = true) →
        (unitW, secs) ∈ [(("days".toList : PyStr), (86400 : Int)),
          ("hours".toList, 3600), ("minutes".toList, 60), ("seconds".toList, 1)] →
        sleepOutcome st args row fs now
          ("Premieres in ".toList ++ (ds ++ ' ' :: unitW))
          (now + digitsVal ds * secs + 7200)) ∧
    sleepOutcome st args row fs now ("begin in a few moments".toList)
      (now + 3600 + 7200) ∧
    (∀ ds unitW, ds ≠ [] → (∀ c ∈ ds, pyDigit c = true) →
        (∀ x ∈ unitW, isLowerAlpha x = true) →
        strHas ("day".toList) unitW = false →
        strHas ("hour".toList) unitW = false →
        strHas ("minute".toList) unitW = false →
        strHas ("second".toList) unitW = false →
        sleepOutcome st args row fs now
          ("Premieres in ".toList ++ (ds ++ ' ' :: unitW))
          (now + 86400 + 7200)) := by
  refine ⟨?_, ?_, ?_⟩
  · intro ds unitW secs hds0 hds hmem
    have hnet : ∀ tl : PyStr, strHas netUnreachNeedle (' ' :: tl) = false →
        strHas netUnreachNeedle ("Premieres in ".toList ++ (ds ++ ' ' :: tl)) = false :=
      fun tl htl => @strHas_sandwich netUnreachNeedle ("Premieres in ".toList) ds
        (' ' :: tl) (by decide) (by decide) hds hds0 (by decide) htl
    simp only [List.mem_cons, List.not_mem_nil, or_false, Prod.mk.injEq] at hmem
    rcases hmem with ⟨rfl, rfl⟩ | ⟨rfl, rfl⟩ | ⟨rfl, rfl⟩ | ⟨rfl, rfl⟩
    · have hc := classify_premieres_eval st row.ytid now ds ("days".toList) hds0 hds
        (by decide) (by decide) (by decide) (by decide) (by decide) (by decide)
        (by decide) (by decide)
      rw [unitDelay_days] at hc
      exact step_sleeps st args row fs now _ _ hauto hdn hsleep hsub hpath
        (hnet _ (by decide)) hc
    · have hc := classify_premieres_eval st row.ytid now ds ("hours".toList) hds0 hds
        (by decide) (by decide) (by decide) (by decide) (by decide) (by decide)
        (by decide) (by decide)
      rw [unitDelay_hours] at hc
      exact step_sleeps st args row fs now _ _ hauto hdn hsleep hsub hpath
        (hnet _ (by decide)) hc
    · have hc := classify_premieres_eval st row.ytid now ds ("minutes".toList) hds0 hds
        (by decide) (by decide) (by decide) (by decide) (by decide) (by decide)
        (by decide) (by decide)
      rw [unitDelay_minutes] at hc
      exact step_sleeps st args row fs now _ _ hauto hdn hsleep hsub hpath
        (hnet _ (by decide)) hc
    · have hc := classify_premieres_eval st row.ytid now ds ("seconds".toList) hds0 hds
        (by decide) (by decide) (by decide) (by decide) (by decide) (by decide)
        (by decide) (by decide)
      rw [unitDelay_seconds] at hc
      rw [show digitsVal ds * 1 = digitsVal ds from by ring]
      exact step_sleeps st args row fs now _ _ hauto hdn hsleep hsub hpath
        (hnet _ (by decide)) hc
  · exact step_sleeps st args row fs now _ _ hauto hdn hsleep hsub hpath (by decide)
      (classify_few_moments st row.ytid now)
  · intro ds unitW hds0 hds hl hu1 hu2 hu3 hu4
    have t1 := @strHas_tail_false_of_char ("Video unavailable".toList) unitW 'V'
      (by decide) (by decide) (by decide) hl
    have t2 := @strHas_tail_false_of_space ("access to members-only content".toList)
      unitW (by decide) (by decide) (by decide) hl
    have t3 := @strHas_tail_false_of_char ("Sign in to confirm your age".toList)
      unitW 'S' (by decide) (by decide) (by decide) hl
    have t4 := @strHas_tail_false_of_char ("Private video".toList) unitW 'P'
      (by decide) (by decide) (by decide) hl
    have t5 := @strHas_tail_false_of_space ("begin in a few moments".toList)
      unitW (by decide) (by decide) (by decide) hl
    have t6 := @strHas_tail_false_of_space ("will begin in ".toList)
      unitW (by decide) (by decide) (by decide) hl
    have t7 := @strHas_tail_false_of_char ("Premieres in ".toList) unitW 'P'
      (by decide) (by decide) (by decide) hl
    have tnet := @strHas_tail_false_of_char netUnreachNeedle unitW 'N'
      (by decide) (by decide) (by decide) hl
    have hnet := @strHas_sandwich netUnreachNeedle ("Premieres in ".toList) ds
      (' ' :: unitW) (by decide) (by decide) hds hds0 (by decide) tnet
    have hc := classify_premieres_eval st row.ytid now ds unitW hds0 hds
      t1 t2 t3 t4 t5 t6 t7 (space_not_mem_of_lower hl)
    rw [unitDelay_unknown (digitsVal ds) hu1 hu2 hu3 hu4] at hc
    exact step_sleeps st args row fs now _ _ hauto hdn hsleep hsub hpath hnet hc

/-- Witness for C3: item `btZ-VFW4wpY` (never downloaded) in `wSt`, with
the three message shapes `Premieres in 10 minutes`,
`begin in a few moments`, and `Premieres in 3 fortnights`. -/
theorem C3_autosleep_premieres_witness :
    sleepOutcome wSt {} wRow {} 1000
      ("Premieres in ".toList ++ ("10".toList ++ ' ' :: "minutes".toList))
      (1000 + digitsVal ("10".toList) * 60 + 7200) ∧
    sleepOutcome wSt {} wRow {} 1000 ("begin in a few moments".toList)
      (1000 + 3600 + 7200) ∧
    sleepOutcome wSt {} wRow {} 1000
      ("Premieres in ".toList ++ ("3".toList ++ ' ' :: "fortnights".toList))
      (1000 + 86400 + 7200) := by
  have h := C3_autosleep_premieres wSt {} wRow {} 1000 (by decide) (by decide)
    (by decide) (by decide) (Or.inl (by decide))
  exact ⟨h.1 ("10".toList) ("minutes".toList) 60 (by decide) (by decide) (by decide),
         h.2.1,
         h.2.2 ("3".toList) ("fortnights".toList) (by decide) (by decide) (by decide)
           (by decide) (by decide) (by decide) (by decide)⟩

/-! ## Supporting lemmas for claim C9 -/

theorem map_eq_self_of {f : Char → Char} {l : PyStr} (h : ∀ c ∈ l, f c = c) :
    l.map f = l := by
  induction l with
  | nil => rfl
  | cons c rest ih =>
    rw [List.map_cons, h c (by simp), ih (fun x hx => h x (by simp [hx]))]

theorem mem_collapseSpaces {c : Char} : ∀ {l : PyStr}, c ∈ collapseSpaces l → c ∈ l
  | [], h => h
  | [_], h => h
  | a :: b :: rest, h => by
    rw [collapseSpaces] at h
    by_cases hab : (a == ' ' && b == ' ') = true
    · rw [if_pos hab] at h
      exact List.mem_cons_of_mem a (mem_collapseSpaces h)
    · rw [if_neg hab] at h
      rcases List.mem_cons.1 h with rfl | h'
      · exact List.mem_cons_self c (b :: rest)
      · exact List.mem_cons_of_mem a (mem_collapseSpaces h')

theorem head?_collapseSpaces : ∀ (l : PyStr), (collapseSpaces l).head? = l.head?
  | [] => rfl
  | [_] => rfl
  | a :: b :: rest => by
    rw [collapseSpaces]
    by_cases hab : (a == ' ' && b == ' ') = true
    · rw [if_pos hab, head?_collapseSpaces (b :: rest)]
      obtain ⟨ha, hb⟩ : a = ' ' ∧ b = ' ' := by
        simpa [Bool.and_eq_true, beq_iff_eq] using hab
      rw [ha, hb]
      rfl
    · rw [if_neg hab]
      rfl

theorem chain_collapseSpaces : ∀ (l : PyStr), noTwoSpaces (collapseSpaces l)
  | [] => List.chain'_nil
  | [c] => List.chain'_singleton c
  | a :: b :: rest => by
    unfold noTwoSpaces
    rw [collapseSpaces]
    by_cases hab : (a == ' ' && b == ' ') = true
    · rw [if_pos hab]
      exact chain_collapseSpaces (b :: rest)
    · rw [if_neg hab]
      rw [List.chain'_cons']
      refine ⟨?_, chain_collapseSpaces (b :: rest)⟩
      intro y hy
      rw [head?_collapseSpaces (b :: rest)] at hy
      have hyb : b = y := by simpa using hy
      subst hyb
      rintro ⟨ha, hb⟩
      exact hab (by simp [ha, hb])

theorem collapseSpaces_eq_self : ∀ {l : PyStr}, noTwoSpaces l → collapseSpaces l = l
  | [], _ => rfl
  | [_], _ => rfl
  | a :: b :: rest, h => by
    unfold noTwoSpaces at h
    rw [List.chain'_cons] at h
    obtain ⟨hR, htail⟩ := h
    have hab : ¬((a == ' ' && b == ' ') = true) := fun hab =>
      hR (by simpa [Bool.and_eq_true, beq_iff_eq] using hab)
    rw [collapseSpaces, if_neg hab, collapseSpaces_eq_self htail]

theorem noTwoSpaces_suffix {l l' : PyStr} (h : noTwoSpaces l) (hs : l' <:+ l) :
    noTwoSpaces l' := by
  obtain ⟨t, rfl⟩ := hs
  exact (List.chain'_append.1 h).2.1

theorem noTwoSpaces_reverse {l : PyStr} (h : noTwoSpaces l) :
    noTwoSpaces l.reverse := by
  unfold noTwoSpaces
  rw [List.chain'_reverse]
  exact List.Chain'.imp (fun a b hab => fun hp => hab ⟨hp.2, hp.1⟩) h

theorem noTwoSpaces_pyStrip {l : PyStr} (h : noTwoSpaces l) :
    noTwoSpaces (pyStrip l) := by
  unfold pyStrip
  apply noTwoSpaces_reverse
  refine noTwoSpaces_suffix ?_ (List.dropWhile_suffix _)
  apply noTwoSpaces_reverse
  exact noTwoSpaces_suffix h (List.dropWhile_suffix _)

theorem head?_dropWhile_not {p : Char → Bool} :
    ∀ {l : PyStr} {c : Char}, (l.dropWhile p).head? = some c → p c = false
  | [], _, h => by simp [List.dropWhile] at h
  | a :: rest, c, h => by
    rw [List.dropWhile_cons] at h
    by_cases hp : p a = true
    · rw [if_pos hp] at h
      exact head?_dropWhile_not h
    · rw [if_neg hp] at h
      have hac : a = c := by simpa using h
      rw [← hac]
      exact Bool.eq_false_iff.2 hp

theorem pyStrip_head_not_ws {l : PyStr} {c : Char}
    (h : (pyStrip l).head? = some c) : isWsChar c = false := by
  unfold pyStrip at h
  rw [List.head?_reverse] at h
  obtain ⟨t, ht⟩ := List.dropWhile_suffix
    (l := (l.dropWhile isWsChar).reverse) (p := isWsChar)
  have hy : ((l.dropWhile isWsChar).reverse).getLast? = some c := by
    rw [← ht, List.getLast?_append, h]
    rfl
  rw [List.getLast?_reverse] at hy
  exact head?_dropWhile_not hy

theorem pyStrip_getLast_not_ws {l : PyStr} {c : Char}
    (h : (pyStrip l).getLast? = some c) : isWsChar c = false := by
  unfold pyStrip at h
  rw [List.getLast?_reverse] at h
  exact head?_dropWhile_not h

theorem mem_pyStrip {l : PyStr} {c : Char} (h : c ∈ pyStrip l) : c ∈ l := by
  unfold pyStrip at h
  rw [List.mem_reverse] at h
  have h1 := (List.dropWhile_sublist _).subset h
  rw [List.mem_reverse] at h1
  exact (List.dropWhile_sublist _).subset h1

theorem translit_ascii_id {c : Char} (h : asciiOk c = true) : translitChar c = c := by
  unfold translitChar
  have hnone : translitTable.find? (fun p => p.1 == c) = none := by
    rw [List.find?_eq_none]
    intro p hp hbeq
    have h128 : ∀ q ∈ translitTable, 128 ≤ q.1.toNat := by decide
    have hq := h128 p hp
    have hceq : p.1 = c := by simpa using hbeq
    rw [hceq] at hq
    have h' : c.toNat < 128 := by simpa [asciiOk] using h
    omega
  rw [hnone]

theorem rewritePunct_ascii {c : Char} (h : asciiOk c = true) :
    asciiOk (rewritePunct c) = true := by
  by_cases hc : (c == ':' || c == '/' || c == '\\') = true
  · have h1 : rewritePunct c = '-' := by unfold rewritePunct; rw [if_pos hc]
    rw [h1]
    decide
  · have h1 : rewritePunct c = c := by unfold rewritePunct; rw [if_neg hc]
    rw [h1]
    exact h

theorem rewritePunct_idem (c : Char) :
    rewritePunct (rewritePunct c) = rewritePunct c := by
  by_cases hc : (c == ':' || c == '/' || c == '\\') = true
  · have h1 : rewritePunct c = '-' := by unfold rewritePunct; rw [if_pos hc]
    rw [h1]
    decide
  · have h1 : rewritePunct c = c := by unfold rewritePunct; rw [if_neg hc]
    rw [h1, h1]

theorem mem_tnClean {t : PyStr} {c : Char} (h : c ∈ tnClean t) :
    asciiOk c = true ∧ translitChar c = c ∧ rewritePunct c = c ∧ keepPunct c = true := by
  unfold tnClean at h
  have h1 := mem_pyStrip h
  have h2 := mem_collapseSpaces h1
  obtain ⟨h3, hkeep⟩ := List.mem_filter.1 h2
  obtain ⟨c', hc', hrw⟩ := List.mem_map.1 h3
  have h4 := (List.dropWhile_sublist _).subset hc'
  obtain ⟨_, hascii'⟩ := List.mem_filter.1 h4
  subst hrw
  exact ⟨rewritePunct_ascii hascii',
    translit_ascii_id (rewritePunct_ascii hascii'), rewritePunct_idem c', hkeep⟩

theorem noTwoSpaces_tnClean (t : PyStr) : noTwoSpaces (tnClean t) := by
  unfold tnClean
  exact noTwoSpaces_pyStrip (chain_collapseSpaces _)

theorem titleToName_fixed (u : PyStr) (hne : u ≠ [])
    (hmem : ∀ c ∈ u, asciiOk c = true ∧ translitChar c = c ∧
      rewritePunct c = c ∧ keepPunct c = true)
    (hnodot : u.head? ≠ some '.')
    (hchain : noTwoSpaces u)
    (hhead : ∀ c, u.head? = some c → isWsChar c = false)
    (hlast : ∀ c, u.getLast? = some c → isWsChar c = false) :
    titleToName u = u := by
  have h1 : u.map translitChar = u := map_eq_self_of (fun c hc => (hmem c hc).2.1)
  have h2 : u.filter asciiOk = u := List.filter_eq_self.2 (fun c hc => (hmem c hc).1)
  have h3 : u.dropWhile (fun c => c == '.') = u := by
    cases u with
    | nil => rfl
    | cons c rest =>
      have hcne : ¬((c == '.') = true) := by
        simp only [beq_iff_eq]
        intro hcd
        subst hcd
        exact hnodot rfl
      rw [List.dropWhile_cons, if_neg hcne]
  have h4 : u.map rewritePunct = u := map_eq_self_of (fun c hc => (hmem c hc).2.2.1)
  have h5 : u.filter keepPunct = u := List.filter_eq_self.2 (fun c hc => (hmem c hc).2.2.2)
  have h6 : collapseSpaces u = u := collapseSpaces_eq_self hchain
  have h7 : pyStrip u = u := pyStrip_eq_self hhead hlast
  have hemp : u.isEmpty = false := by
    cases u with
    | nil => exact absurd rfl hne
    | cons a b => rfl
  simp only [titleToName, tnClean]
  rw [h1, h2, h3, h4, h5, h6, h7, hemp]
  rfl

/-! ## Claim C9: name canonicalization idempotence -/

/-- C9 as frozen fails on the modelled `title_to_name`: the input `" .a"`
canonicalizes to `".a"` (the leading dot only appears after trimming), and
a second application strips it to `"a"`. -/
theorem C9_counterexample :
    ¬ (titleToName (titleToName (" .a".toList)) = titleToName (" .a".toList)) := by
  decide

/-- C9 (amended): `title_to_name` is idempotent on every string whose
canonical form does not begin with a dot: if `title_to_name(s)` does not
start with `'.'`, then `title_to_name(title_to_name(s)) = title_to_name(s)`. -/
theorem C9_title_to_name_idem (s : PyStr) (h : (titleToName s).head? ≠ some '.') :
    titleToName (titleToName s) = titleToName s := by
  by_cases he : (tnClean s).isEmpty = true
  · have hts : titleToName s = "NOTHING".toList := by
      simp only [titleToName]
      rw [if_pos he]
    rw [hts]
    decide
  · have hts : titleToName s = tnClean s := by
      simp only [titleToName]
      rw [if_neg he]
    rw [hts] at h ⊢
    have hne : tnClean s ≠ [] := by
      intro hnil
      rw [hnil] at he
      exact he rfl
    exact titleToName_fixed (tnClean s) hne (fun c hc => mem_tnClean hc) h
      (noTwoSpaces_tnClean s) (fun c hc => pyStrip_head_not_ws hc)
      (fun c hc => pyStrip_getLast_not_ws hc)

/-- Witness for C9 (amended) at `"Hello World"`, whose canonical form has
no leading dot. -/
theorem C9_title_to_name_idem_witness :
    titleToName (titleToName ("Hello World".toList)) =
      titleToName ("Hello World".toList) :=
  C9_title_to_name_idem ("Hello World".toList) (by decide)

/-- Witness for C5 (amended): registering `btZ-VFW4wpY` in the empty
catalog at instant 12345, then registering it again at instant 99999. -/
theorem C5_add_video_witness :
    ((addVideoUrl {} ("btZ-VFW4wpY".toList) 12345).v.filter
        (fun r => r.ytid == "btZ-VFW4wpY".toList)).map
        (fun r => (r.dname, r.skip, r.ptime, r.ctime, r.atime, r.utime)) =
      [(some ("MISCELLANEOUS".toList), false, none, some 12345, none, none)] ∧
    addVideoUrl (addVideoUrl {} ("btZ-VFW4wpY".toList) 12345)
        ("btZ-VFW4wpY".toList) 99999 =
      addVideoUrl {} ("btZ-VFW4wpY".toList) 12345 :=
  C5_add_video {} ("btZ-VFW4wpY".toList) 12345 99999 (by decide)

end Ydl
